import Mathlib

/-!
Verification development for dedoc's attachment extraction and per-page PDF
pipeline.  The Python sources are shallowly embedded: byte strings become
`List Nat`, Python `str` becomes `String`, fallible code (code that may raise)
returns `Option`, and external collaborators (olefile, the layout classifier,
the skew corrector, the table recognizer, the metadata extractor) are passed in
as explicit data or functions.  Geometry uses exact rational coordinates.
-/

namespace Dedoc

/-- Little-endian accumulation of four bytes exactly as `__parse_ole_contents`
builds it: `size |= b0 << 0; size |= b1 << 8; size |= b2 << 16; size |= b3 << 24`
starting from `0`. -/
def le32 (b0 b1 b2 b3 : Nat) : Nat :=
  (((0 ||| (b0 <<< 0)) ||| (b1 <<< 8)) ||| (b2 <<< 16)) ||| (b3 <<< 24)

/-- Decoding of a byte list into a string, one character per byte, as the Python
loop `filename += chr(ord_chr)` builds the recovered filename. -/
def oleString (bs : List Nat) : String :=
  String.mk (bs.map Char.ofNat)

/-- Final step of `__parse_ole_contents`: read the 4-byte little-endian content
size and take that many bytes as the payload.  Python raises `IndexError`
(modelled as `none`) when fewer than 4 bytes remain for the size field. -/
def parseOleSize (stream : List Nat) (filename : String) : Option (String × List Nat) :=
  match stream with
  | c0 :: c1 :: c2 :: c3 :: rest => some (filename, rest.take (le32 c0 c1 c2 c3))
  | _ => none

/-- Middle step of `__parse_ole_contents`: read the 4-byte little-endian length
of the temporary file path, skip that many bytes, and continue with the content
size field.  `none` models the `IndexError` raised when fewer than 4 bytes
remain for the length field. -/
def parseOleTmpPath (stream : List Nat) (filename : String) : Option (String × List Nat) :=
  match stream with
  | b0 :: b1 :: b2 :: b3 :: rest => parseOleSize (rest.drop (le32 b0 b1 b2 b3)) filename
  | _ => none

/-- Translation of `DocxAttachmentsExtractor.__parse_ole_contents`: skip the
6-byte header, read the null-terminated filename, skip the null-terminated
original filepath and 4 unused bytes, skip the length-prefixed temporary file
path, then return the filename together with the length-prefixed content. -/
def parse_ole_contents (stream : List Nat) : Option (String × List Nat) :=
  let s1 := stream.drop 6
  let fnameBytes := s1.takeWhile (fun b => b != 0)
  let filename := oleString fnameBytes
  let s2 := s1.drop (fnameBytes.length + 1)
  let filesize := (s2.takeWhile (fun b => b != 0)).length
  let s3 := s2.drop (filesize + 1 + 4)
  parseOleTmpPath s3 filename

/-- Modelled from the spec: the view of a legacy compound (OLE) container that
`get_attachments` consumes through the external `olefile` library — presence
and payload of the two stream names the collector queries (`CONTENTS` and the
native-object stream `\x01Ole10Native`, §4.2). -/
structure OleView where
  contents : Option (List Nat)
  ole10Native : Option (List Nat)
  deriving DecidableEq

/-- One member of the zip archive: its path inside the archive, its raw bytes,
and the compound-container view `olefile` would produce from those bytes
(`none` models `olefile` raising on a malformed container; it is consulted only
for `.bin` members). -/
structure ZipEntry where
  name : String
  data : List Nat
  ole : Option OleView
  deriving DecidableEq

/-- Model of Python `str.endswith`. -/
def endsWithStr (s suf : String) : Bool :=
  List.isSuffixOf suf.data s.data

/-- Model of Python `str.startswith`. -/
def startsWithStr (s p : String) : Bool :=
  List.isPrefixOf p.data s.data

/-- Model of `os.path.split(path)[-1]`: the part of the path after the last
separator. -/
def baseName (s : String) : String :=
  String.mk (s.data.foldl (fun acc c => if c = '/' then [] else acc ++ [c]) [])

/-- Index of the last dot in a character list, if any. -/
def lastDotIdx (l : List Char) : Option Nat :=
  ((List.range l.length).filter (fun i => l.getD i ' ' == '.')).getLast?

/-- Model of `os.path.splitext(p)[-2]` for a path without separators: drop the
extension starting at the last dot, except when every character before that dot
is itself a dot (Python then treats the name as having no extension). -/
def splitextStem (p : String) : String :=
  match lastDotIdx p.data with
  | none => p
  | some i => if (p.data.take i).any (fun c => c != '.') then String.mk (p.data.take i) else p

/-- The 5-byte PDF magic `%PDF-`. -/
def pdfMagic : List Nat := [37, 80, 68, 70, 45]

/-- One iteration of the `for attachment in attachments` loop body of
`DocxAttachmentsExtractor.get_attachments`: `none` models an exception raised
while processing this member, `some none` a member contributing no attachment,
`some (some a)` the appended attachment `a`. -/
def processEntry (e : ZipEntry) : Option (Option (String × List Nat)) :=
  let original_name := baseName e.name
  if !(endsWithStr original_name ".emf") && !(endsWithStr original_name ".bin") then
    some (some (original_name, e.data))
  else if endsWithStr original_name ".bin" then
    match e.ole with
    | none => none
    | some ole =>
      match ole.contents with
      | some data =>
        if data.take 5 = pdfMagic then some (some (splitextStem original_name ++ ".pdf", data))
        else some none
      | none =>
        match ole.ole10Native with
        | some data =>
          match parse_ole_contents data with
          | some (original_name2, contents) => some (some (original_name2, contents))
          | none => none
        | none => some none
  else some none

/-- The archive members `get_attachments` walks, in order: all entries under
`word/media/` first, then all entries under `word/embeddings/`, each group in
the archive's native listing order. -/
def mediaThenEmbedded (files : List ZipEntry) : List ZipEntry :=
  files.filter (fun f => startsWithStr f.name "word/media/") ++
    files.filter (fun f => startsWithStr f.name "word/embeddings/")

/-- The `for` loop of `get_attachments` under its enclosing `try`: entries are
processed in order and an exception anywhere (`none`) aborts the whole loop. -/
def runEntries : List ZipEntry → Option (List (String × List Nat))
  | [] => some []
  | e :: rest =>
    match processEntry e with
    | none => none
    | some none => runEntries rest
    | some (some a) => (runEntries rest).map (fun l => a :: l)

/-- Translation of `DocxAttachmentsExtractor.get_attachments`.  The extension is
taken as already split off the filename.  The outer `none` models Python's
implicit `return None` when the extension is not `.docx` (the `if` body is
never entered and the function falls through without a `return`); `some []` is
the `except` branch that swallows any exception raised inside the loop. -/
def get_attachments (ext : String) (files : List ZipEntry) : Option (List (String × List Nat)) :=
  if ext = ".docx" then
    match runEntries (mediaThenEmbedded files) with
    | some result => some result
    | none => some []
  else none

/-- Modelled from the spec: rectangle with top-left corner and extent (§3,
§4.1).  Coordinates are exact rationals so that linear rescaling is exact. -/
structure BBox where
  x_top_left : ℚ
  y_top_left : ℚ
  width : ℚ
  height : ℚ
  deriving DecidableEq

/-- Modelled from the spec: `intersects(a, b)` is true iff the two rectangles
share positive-area overlap; touching edges do not count (§4.1).  The receiver
is the (table or frame) block, the argument the queried box, matching the call
`block.have_intersection_with_box(obj_bbox)`. -/
def BBox.have_intersection_with_box (block obj : BBox) : Bool :=
  decide (max block.x_top_left obj.x_top_left <
      min (block.x_top_left + block.width) (obj.x_top_left + obj.width)) &&
    decide (max block.y_top_left obj.y_top_left <
      min (block.y_top_left + block.height) (obj.y_top_left + obj.height))

/-- Modelled from the spec: `shift(box, dx, dy)` translates a box (§4.1). -/
def BBox.shift (b : BBox) (shift_x shift_y : ℚ) : BBox :=
  { b with x_top_left := b.x_top_left + shift_x, y_top_left := b.y_top_left + shift_y }

/-- Modelled from the spec: `rescale` maps a box between page-dimension spaces
by scaling each coordinate and each of width/height independently (§4.1). -/
def BBox.rescale (b : BBox) (old_width old_height new_width new_height : ℚ) : BBox :=
  { x_top_left := b.x_top_left * new_width / old_width,
    y_top_left := b.y_top_left * new_height / old_height,
    width := b.width * new_width / old_width,
    height := b.height * new_height / old_height }

/-- A line box internal to a table cell, carrying the dimensions of the
coordinate space it was computed in (image-pixel space). -/
structure LineBox where
  bbox : BBox
  page_width : ℚ
  page_height : ℚ
  deriving DecidableEq

/-- A table cell: its own box and its contained line boxes. -/
structure Cell where
  bbox : BBox
  lines : List LineBox
  deriving DecidableEq

/-- One detected region of a table (`table.locations` elements). -/
structure Location where
  bbox : BBox
  deriving DecidableEq

/-- A detected table: its region boxes and its matrix of cells. -/
structure ScanTable where
  locations : List Location
  matrix_cells : List (List Cell)
  deriving DecidableEq

/-- An element of `page.bboxes`: a text-layer line box. -/
structure TextWithBBox where
  bbox : BBox
  deriving DecidableEq

/-- An embedded-image attachment record; its content is irrelevant here. -/
structure Attachment where
  id : Nat
  deriving DecidableEq

/-- The text-layer extractor's page: line boxes, attachments and the page's
native dimensions. -/
structure Page where
  bboxes : List TextWithBBox
  attachments : List Attachment
  pdf_page_width : ℚ
  pdf_page_height : ℚ
  deriving DecidableEq

/-- Modelled from the spec: `Cell.shift` translates the cell by the supplied
offset (§4.4 step 1); the image dimensions are accepted as at the call site but
the spec assigns them no role in the shift. -/
def Cell.shift (c : Cell) (shift_x shift_y _image_width _image_height : ℚ) : Cell :=
  { c with bbox := c.bbox.shift shift_x shift_y }

/-- Modelled from the spec: rescale every internal line box of the cell from
the image-pixel space it was computed in into the page's native space, whose
dimensions are supplied (§4.4 step 4). -/
def Cell.change_lines_boxes_page_width_height (c : Cell) (new_page_width new_page_height : ℚ) : Cell :=
  { c with lines := c.lines.map (fun lb =>
      { bbox := lb.bbox.rescale lb.page_width lb.page_height new_page_width new_page_height,
        page_width := new_page_width, page_height := new_page_height }) }

/-- Translation of `PdfTxtlayerReader._inside_any_unreadable_block`: whether
the box intersects at least one of the blocks. -/
def inside_any_unreadable_block (obj_bbox : BBox) (unreadable_blocks : List BBox) : Bool :=
  unreadable_blocks.any (fun block => block.have_intersection_with_box obj_bbox)

/-- Translation of `PdfTxtlayerReader._move_table_cells` as a pure transform:
every table location and every cell is shifted by the frame's top-left
offset. -/
def move_table_cells (tables : List ScanTable) (page_shift : BBox) (page : Page) : List ScanTable :=
  tables.map (fun table =>
    { locations := table.locations.map (fun location =>
        { bbox := location.bbox.shift page_shift.x_top_left page_shift.y_top_left }),
      matrix_cells := table.matrix_cells.map (fun row => row.map (fun cell =>
        cell.shift page_shift.x_top_left page_shift.y_top_left page.pdf_page_width page.pdf_page_height)) })

/-- Translation of `PdfTxtlayerReader.__change_table_boxes_page_width_heigth`
as a pure transform. -/
def change_table_boxes_page_width_heigth (pdf_width pdf_height : ℚ) (tables : List ScanTable) : List ScanTable :=
  tables.map (fun table =>
    { table with matrix_cells := table.matrix_cells.map (fun row => row.map (fun cell =>
        cell.change_lines_boxes_page_width_height pdf_width pdf_height)) })

/-- The line-box filtering of `PdfTxtlayerReader._process_one_page` (lines
62-68): when frame analysis is on, keep only boxes intersecting the readable
frame; then drop every box intersecting one of the table blocks. -/
def filterPageBBoxes (needFrame : Bool) (frame : BBox) (tableBlocks : List BBox)
    (bboxes : List TextWithBBox) : List TextWithBBox :=
  let afterFrame :=
    if needFrame then bboxes.filter (fun b => inside_any_unreadable_block b.bbox [frame])
    else bboxes
  afterFrame.filter (fun b => !(inside_any_unreadable_block b.bbox tableBlocks))

/-- The two parsing flags of `ParametersForParseDoc` that
`PdfTxtlayerReader._process_one_page` consults. -/
structure ParametersForParseDoc where
  need_pdf_table_analysis : Bool
  need_gost_frame_analysis : Bool

/-- Translation of `PdfTxtlayerReader._process_one_page`.  The table
recognizer's output, the text-layer extractor's output (`none` when the page is
not available) and the page's gost-frame box are passed in as collaborator
results; the metadata extractor is an opaque function. -/
def process_one_page {Line : Type} (extract_metadata : Page → List Line)
    (parameters : ParametersForParseDoc) (recognized_tables : List ScanTable)
    (extracted_page : Option Page) (gost_frame_box : BBox) :
    List Line × List ScanTable × List Attachment × List ℚ :=
  let tables := if parameters.need_pdf_table_analysis then recognized_tables else []
  match extracted_page with
  | none => ([], [], [], [])
  | some page =>
    let tables :=
      if parameters.need_gost_frame_analysis then move_table_cells tables gost_frame_box page
      else tables
    let unreadable_blocks := tables.flatMap (fun t => t.locations.map Location.bbox)
    let page2 := { page with bboxes := (filterPageBBoxes
      parameters.need_gost_frame_analysis gost_frame_box unreadable_blocks page.bboxes) }
    let lines := extract_metadata page2
    let tables2 := change_table_boxes_page_width_heigth page.pdf_page_width page.pdf_page_height tables
    (lines, tables2, page2.attachments, [])

/-- Result of `PdfImageReader._detect_column_count_and_orientation`, extended
with instrumentation: whether the layout classifier was invoked, and which
orientation angle was requested from the skew corrector. -/
structure DetectResult (Image : Type) where
  rotated_image : Image
  is_one_column_document : Bool
  result_angle : ℚ
  classifier_called : Bool
  requested_angle : ℚ

/-- Translation of `PdfImageReader._detect_column_count_and_orientation`.  The
layout classifier (`predict`) and the skew corrector (`preprocess`, taking the
requested orientation angle and returning the rotated image with the actually
applied angle) are opaque collaborator functions. -/
def detect_column_count_and_orientation {Image : Type}
    (predict : Image → Int × ℚ) (skew_corrector : Image → ℚ → Image × ℚ)
    (image : Image) (is_one_column_document : Option Bool)
    (document_orientation : Option String) : DetectResult Image :=
  let called := is_one_column_document.isNone || document_orientation.isNone
  let predicted := if called then some (predict image) else none
  let is_one : Bool :=
    match is_one_column_document, predicted with
    | some hint, _ => hint
    | none, some (columns, _) => columns == 1
    | none, none => false
  let angle : ℚ :=
    match document_orientation, predicted with
    | some _, _ => 0
    | none, some (_, a) => a
    | none, none => 0
  let res := skew_corrector image angle
  ⟨res.1, is_one, res.2, called, angle⟩

/-- Classification of a single archive member following the spec's wording for
the Attachment Collector (§4.6), with the correction the code forces: the
native-object branch is reached only when no `CONTENTS` stream exists at all. -/
def attachmentOfEntrySpec (e : ZipEntry) : Option (String × List Nat) :=
  let nm := baseName e.name
  if endsWithStr nm ".emf" then none
  else if endsWithStr nm ".bin" then
    match e.ole with
    | none => none
    | some ole =>
      match ole.contents with
      | some d => if d.take 5 = pdfMagic then some (splitextStem nm ++ ".pdf", d) else none
      | none =>
        match ole.ole10Native with
        | some d => parse_ole_contents d
        | none => none
  else some (nm, e.data)

/-- Classification of a single archive member exactly as claim C2 words it: a
`.bin` entry without a `CONTENTS`-with-PDF-magic payload falls through to the
native-object branch even when a (non-PDF) `CONTENTS` stream exists. -/
def attachmentOfEntryClaim (e : ZipEntry) : Option (String × List Nat) :=
  let nm := baseName e.name
  if !(endsWithStr nm ".emf") && !(endsWithStr nm ".bin") then some (nm, e.data)
  else if endsWithStr nm ".bin" then
    match e.ole with
    | none => none
    | some ole =>
      if (match ole.contents with
          | some d => decide (d.take 5 = pdfMagic)
          | none => false) then
        ole.contents.map (fun d => (splitextStem nm ++ ".pdf", d))
      else
        match ole.ole10Native with
        | some d => parse_ole_contents d
        | none => none
  else none

/-- Containment of `inner` in `outer`: the reading "falls inside the frame's
box" used by claim C5. -/
def BBox.insideBox (inner outer : BBox) : Bool :=
  decide (outer.x_top_left ≤ inner.x_top_left) &&
    decide (inner.x_top_left + inner.width ≤ outer.x_top_left + outer.width) &&
    decide (outer.y_top_left ≤ inner.y_top_left) &&
    decide (inner.y_top_left + inner.height ≤ outer.y_top_left + outer.height)

/-- Spec-side restatement for claim C8: a table with every location box and
every cell box shifted by exactly the frame's top-left offset. -/
def tableShiftedBy (offset : BBox) (t : ScanTable) : ScanTable :=
  { locations := t.locations.map (fun l => ⟨l.bbox.shift offset.x_top_left offset.y_top_left⟩),
    matrix_cells := t.matrix_cells.map (fun row => row.map (fun c =>
      { c with bbox := c.bbox.shift offset.x_top_left offset.y_top_left })) }

/-- Spec-side restatement for claim C8: every cell's internal line boxes
rescaled from their own source space into the target page dimensions. -/
def tableRescaledTo (w h : ℚ) (t : ScanTable) : ScanTable :=
  { t with matrix_cells := t.matrix_cells.map (fun row => row.map (fun c =>
      { c with lines := c.lines.map (fun lb =>
          { bbox := lb.bbox.rescale lb.page_width lb.page_height w h,
            page_width := w, page_height := h }) })) }

/-- Concrete archive members used by the closed instances below. -/
def exMedia : ZipEntry := ⟨"word/media/img1.png", [1, 2, 3], none⟩

def exBinPdf : ZipEntry :=
  ⟨"word/embeddings/obj1.bin", [], some ⟨some [37, 80, 68, 70, 45, 9], none⟩⟩

def exEmf : ZipEntry := ⟨"word/media/pic.emf", [4, 5], none⟩

def ceOleStream : List Nat :=
  [0, 0, 0, 0, 0, 0, 104, 105, 46, 116, 120, 116, 0, 0, 0, 0, 0, 0, 0, 0, 0, 0, 1, 0, 0, 0, 55]

def ceBinBoth : ZipEntry :=
  ⟨"word/embeddings/obj2.bin", [], some ⟨some [9, 9, 9], some ceOleStream⟩⟩

def ceBadBin : ZipEntry := ⟨"word/embeddings/broken.bin", [1], none⟩

/-- Concrete geometry and page data used by the closed instances below. -/
def ceFrame : BBox := ⟨0, 0, 10, 10⟩

def ceLine : TextWithBBox := ⟨⟨5, 5, 10, 10⟩⟩

def ceParams : ParametersForParseDoc := ⟨true, true⟩

def ceTable : ScanTable :=
  ⟨[⟨⟨1, 2, 3, 4⟩⟩], [[⟨⟨0, 0, 2, 2⟩, [⟨⟨1, 1, 1, 1⟩, 2, 2⟩]⟩]]⟩

def cePage : Page := ⟨[], [], 4, 4⟩

theorem lor_shiftLeft_eq_add {a : Nat} (b n : Nat) (ha : a < 2 ^ n) :
    a ||| (b <<< n) = 2 ^ n * b + a := by
  rw [Nat.shiftLeft_eq, Nat.mul_comm, Nat.lor_comm, ← Nat.mul_add_lt_is_or ha]

theorem le32_eq (b0 b1 b2 b3 : Nat) (h0 : b0 < 256) (h1 : b1 < 256) (h2 : b2 < 256)
    (h3 : b3 < 256) :
    le32 b0 b1 b2 b3 = b0 + 256 * b1 + 65536 * b2 + 16777216 * b3 := by
  have p8 : (2 : Nat) ^ 8 = 256 := by norm_num
  have p16 : (2 : Nat) ^ 16 = 65536 := by norm_num
  have p24 : (2 : Nat) ^ 24 = 16777216 := by norm_num
  unfold le32
  rw [Nat.zero_or, Nat.shiftLeft_zero]
  rw [lor_shiftLeft_eq_add b1 8 (by omega)]
  rw [lor_shiftLeft_eq_add b2 16 (by rw [p16]; rw [p8] at *; omega)]
  rw [lor_shiftLeft_eq_add b3 24 (by rw [p24]; rw [p8, p16] at *; omega)]
  rw [p8, p16, p24]
  omega

theorem takeWhile_nonzero_append (l r : List Nat) (hl : ∀ b ∈ l, b ≠ 0) :
    (l ++ 0 :: r).takeWhile (fun b => b != 0) = l := by
  rw [List.takeWhile_append_of_pos (by intro a ha; simpa using hl a ha)]
  simp [List.takeWhile_cons]

theorem drop_after_zero (l r : List Nat) : (l ++ 0 :: r).drop (l.length + 1) = r := by
  have h : l ++ 0 :: r = (l ++ [0]) ++ r := by simp
  rw [h, List.drop_left' (by simp)]

theorem drop_after_zero4 (l u r : List Nat) (hu : u.length = 4) :
    (l ++ 0 :: (u ++ r)).drop (l.length + 1 + 4) = r := by
  have h : l ++ 0 :: (u ++ r) = ((l ++ [0]) ++ u) ++ r := by simp
  rw [h, List.drop_left' (by simp [hu])]

theorem parse_ole_contents_shape
    (hdr fname fpath u4 tmp rest : List Nat) (l0 l1 l2 l3 n0 n1 n2 n3 : Nat)
    (hhdr : hdr.length = 6) (hfn : ∀ b ∈ fname, b ≠ 0) (hfp : ∀ b ∈ fpath, b ≠ 0)
    (hu4 : u4.length = 4) (htmp : tmp.length = le32 l0 l1 l2 l3) :
    parse_ole_contents
      (hdr ++ (fname ++ (0 :: (fpath ++ (0 :: (u4 ++
        (l0 :: l1 :: l2 :: l3 :: (tmp ++ (n0 :: n1 :: n2 :: n3 :: rest))))))))) =
      some (oleString fname, rest.take (le32 n0 n1 n2 n3)) := by
  simp only [parse_ole_contents]
  rw [List.drop_left' hhdr]
  rw [takeWhile_nonzero_append _ _ hfn]
  rw [drop_after_zero]
  rw [takeWhile_nonzero_append _ _ hfp]
  rw [drop_after_zero4 _ _ _ hu4]
  simp only [parseOleTmpPath]
  rw [← htmp, List.drop_left]
  rfl

end Dedoc

namespace Dedoc

/-- Claim C1: for every byte stream laid out as the compound-stream format — a
6-byte unused header, a null-terminated filename, a second null-terminated
string, 4 unused bytes, a 4-byte little-endian length `L` followed by `L`
bytes, then a 4-byte little-endian length `N` followed by at least `N` bytes of
content — `__parse_ole_contents` returns exactly that filename (without the
terminating zero) and exactly those `N` content bytes. -/
theorem parse_ole_contents_roundtrip
    (hdr fname fpath u4 tmp content extra : List Nat) (l0 l1 l2 l3 n0 n1 n2 n3 : Nat)
    (hhdr : hdr.length = 6) (hfn : ∀ b ∈ fname, b ≠ 0) (hfp : ∀ b ∈ fpath, b ≠ 0)
    (hu4 : u4.length = 4)
    (hl0 : l0 < 256) (hl1 : l1 < 256) (hl2 : l2 < 256) (hl3 : l3 < 256)
    (hn0 : n0 < 256) (hn1 : n1 < 256) (hn2 : n2 < 256) (hn3 : n3 < 256)
    (htmp : tmp.length = l0 + 256 * l1 + 65536 * l2 + 16777216 * l3)
    (hcontent : content.length = n0 + 256 * n1 + 65536 * n2 + 16777216 * n3) :
    parse_ole_contents
      (hdr ++ (fname ++ (0 :: (fpath ++ (0 :: (u4 ++
        (l0 :: l1 :: l2 :: l3 :: (tmp ++ (n0 :: n1 :: n2 :: n3 :: (content ++ extra)))))))))) =
      some (oleString fname, content) := by
  have hle : tmp.length = le32 l0 l1 l2 l3 := by
    rw [le32_eq _ _ _ _ hl0 hl1 hl2 hl3]; exact htmp
  rw [parse_ole_contents_shape hdr fname fpath u4 tmp (content ++ extra)
    l0 l1 l2 l3 n0 n1 n2 n3 hhdr hfn hfp hu4 hle]
  rw [le32_eq _ _ _ _ hn0 hn1 hn2 hn3, ← hcontent, List.take_left]

/-- Witness for C1 at the spec's round-trip example: filename `report.pdf`,
content starting with the `%PDF-` magic. -/
theorem parse_ole_contents_roundtrip_witness :
    parse_ole_contents
      ([1, 2, 3, 4, 5, 6] ++ ([114, 101, 112, 111, 114, 116, 46, 112, 100, 102] ++ (0 ::
        ([99, 58] ++ (0 :: ([9, 9, 9, 9] ++ (2 :: 0 :: 0 :: 0 ::
          ([55, 56] ++ (6 :: 0 :: 0 :: 0 :: ([37, 80, 68, 70, 45, 33] ++ [77])))))))))) =
      some ("report.pdf", [37, 80, 68, 70, 45, 33]) := by
  have h := parse_ole_contents_roundtrip [1, 2, 3, 4, 5, 6]
    [114, 101, 112, 111, 114, 116, 46, 112, 100, 102] [99, 58] [9, 9, 9, 9] [55, 56]
    [37, 80, 68, 70, 45, 33] [77] 2 0 0 0 6 0 0 0
    (by decide) (by decide) (by decide) (by decide) (by decide) (by decide) (by decide)
    (by decide) (by decide) (by decide) (by decide) (by decide) (by decide) (by decide)
  exact (by decide :
    oleString [114, 101, 112, 111, 114, 116, 46, 112, 100, 102] = "report.pdf") ▸ h

/-- Claim C9: when the declared 4-byte little-endian content length exceeds the
number of bytes remaining after the length field, `__parse_ole_contents` does
not fail and silently returns exactly the remaining bytes as the content. -/
theorem parse_ole_contents_truncated
    (hdr fname fpath u4 tmp rest : List Nat) (l0 l1 l2 l3 n0 n1 n2 n3 : Nat)
    (hhdr : hdr.length = 6) (hfn : ∀ b ∈ fname, b ≠ 0) (hfp : ∀ b ∈ fpath, b ≠ 0)
    (hu4 : u4.length = 4)
    (hl0 : l0 < 256) (hl1 : l1 < 256) (hl2 : l2 < 256) (hl3 : l3 < 256)
    (hn0 : n0 < 256) (hn1 : n1 < 256) (hn2 : n2 < 256) (hn3 : n3 < 256)
    (htmp : tmp.length = l0 + 256 * l1 + 65536 * l2 + 16777216 * l3)
    (hrest : rest.length < n0 + 256 * n1 + 65536 * n2 + 16777216 * n3) :
    parse_ole_contents
      (hdr ++ (fname ++ (0 :: (fpath ++ (0 :: (u4 ++
        (l0 :: l1 :: l2 :: l3 :: (tmp ++ (n0 :: n1 :: n2 :: n3 :: rest))))))))) =
      some (oleString fname, rest) := by
  have hle : tmp.length = le32 l0 l1 l2 l3 := by
    rw [le32_eq _ _ _ _ hl0 hl1 hl2 hl3]; exact htmp
  rw [parse_ole_contents_shape hdr fname fpath u4 tmp rest
    l0 l1 l2 l3 n0 n1 n2 n3 hhdr hfn hfp hu4 hle]
  rw [le32_eq _ _ _ _ hn0 hn1 hn2 hn3]
  rw [List.take_of_length_le (by omega)]

/-- Witness for C9: the stream declares 100 content bytes but only 2 remain;
the parser returns those 2 bytes. -/
theorem parse_ole_contents_truncated_witness :
    parse_ole_contents
      ([0, 0, 0, 0, 0, 0] ++ ([104, 105] ++ (0 :: ([] ++ (0 :: ([7, 7, 7, 7] ++
        (0 :: 0 :: 0 :: 0 :: ([] ++ (100 :: 0 :: 0 :: 0 :: [41, 42])))))))) ) =
      some (oleString [104, 105], [41, 42]) :=
  parse_ole_contents_truncated [0, 0, 0, 0, 0, 0] [104, 105] [] [7, 7, 7, 7] [] [41, 42]
    0 0 0 0 100 0 0 0
    (by decide) (by decide) (by decide) (by decide) (by decide) (by decide) (by decide)
    (by decide) (by decide) (by decide) (by decide) (by decide) (by decide) (by decide)

theorem not_both_emf_bin (s : String) :
    ¬(endsWithStr s ".emf" = true ∧ endsWithStr s ".bin" = true) := by
  rintro ⟨h1, h2⟩
  unfold endsWithStr at h1 h2
  rw [List.isSuffixOf_iff_suffix] at h1 h2
  obtain ⟨t1, ht1⟩ := h1
  obtain ⟨t2, ht2⟩ := h2
  have hh := List.append_inj' (ht1.trans ht2.symm) (by decide)
  exact absurd hh.2 (by decide)

theorem processEntry_ok (e : ZipEntry) (o : Option (String × List Nat))
    (h : processEntry e = some o) : attachmentOfEntrySpec e = o := by
  unfold processEntry at h
  unfold attachmentOfEntrySpec
  by_cases h1 : endsWithStr (baseName e.name) ".emf" <;>
    by_cases h2 : endsWithStr (baseName e.name) ".bin"
  · exact absurd ⟨h1, h2⟩ (not_both_emf_bin _)
  · simp only [h1, h2, Bool.not_true, Bool.not_false, Bool.false_and, Bool.and_false,
      if_false, if_true, Bool.true_and, Bool.and_true, ite_true, ite_false] at h ⊢
    simp at h
    simp [h]
  · simp only [h1, h2, Bool.not_true, Bool.not_false, Bool.false_and, Bool.and_false,
      if_false, if_true, Bool.true_and, Bool.and_true, ite_true, ite_false] at h ⊢
    cases hO : e.ole with
    | none => simp [hO] at h
    | some ole =>
      simp only [hO] at h ⊢
      cases hC : ole.contents with
      | some d =>
        simp only [hC] at h ⊢
        by_cases hm : d.take 5 = pdfMagic
        · simp only [hm, if_true, ite_true] at h ⊢
          simp at h
          simp [h]
        · simp only [hm, if_false, ite_false] at h ⊢
          simp at h
          simp [h]
      | none =>
        simp only [hC] at h ⊢
        cases hN : ole.ole10Native with
        | some d =>
          simp only [hN] at h ⊢
          cases hP : parse_ole_contents d with
          | some p => simp only [hP] at h ⊢; simp at h; simp [h]
          | none => simp [hP] at h
        | none => simp only [hN] at h ⊢; simp at h; simp [h]
  · simp only [h1, h2, Bool.not_true, Bool.not_false, Bool.false_and, Bool.and_false,
      if_false, if_true, Bool.true_and, Bool.and_true, ite_true, ite_false] at h ⊢
    simp at h
    simp [h]

theorem runEntries_eq_filterMap (l : List ZipEntry) (h : ∀ e ∈ l, processEntry e ≠ none) :
    runEntries l = some (l.filterMap attachmentOfEntrySpec) := by
  induction l with
  | nil => rfl
  | cons e rest ih =>
    have he := h e (List.mem_cons_self e rest)
    cases hP : processEntry e with
    | none => exact absurd hP he
    | some o =>
      have hspec := processEntry_ok e o hP
      have ihh := ih (fun x hx => h x (List.mem_cons_of_mem _ hx))
      cases o with
      | none => simp [runEntries, hP, ihh, List.filterMap_cons, hspec]
      | some a => simp [runEntries, hP, ihh, List.filterMap_cons, hspec]

theorem runEntries_none (l : List ZipEntry) (h : ∃ e ∈ l, processEntry e = none) :
    runEntries l = none := by
  induction l with
  | nil => simp at h
  | cons e rest ih =>
    rcases h with ⟨x, hx, hpx⟩
    rcases List.mem_cons.mp hx with rfl | hx'
    · simp [runEntries, hpx]
    · cases hP : processEntry e with
      | none => simp [runEntries, hP]
      | some o => cases o <;> simp [runEntries, hP, ih ⟨_, hx', hpx⟩]

/-- Claim C2 (amended): for a recognized container document all of whose listed
members process without an exception, `get_attachments` returns the attachments
of the media subtree first, then those of the embedded-object subtree, each in
native listing order, with each entry classified by suffix as in
`attachmentOfEntrySpec` (raw copy; `.bin` with a PDF `CONTENTS` stream renamed
to the stem plus `.pdf`; `.bin` with no `CONTENTS` stream but a native-object
stream parsed by the compound parser; nothing otherwise, including every
`.emf` entry and every `.bin` entry whose `CONTENTS` payload lacks the PDF
magic). -/
theorem get_attachments_characterization (files : List ZipEntry)
    (h : ∀ e ∈ mediaThenEmbedded files, processEntry e ≠ none) :
    get_attachments ".docx" files =
      some ((mediaThenEmbedded files).filterMap attachmentOfEntrySpec) := by
  unfold get_attachments
  rw [if_pos rfl, runEntries_eq_filterMap _ h]

/-- Witness for C2 at the spec's example container: `img1.png` is copied
verbatim, `obj1.bin` becomes `obj1.pdf` with the PDF payload, and `pic.emf`
produces nothing. -/
theorem get_attachments_characterization_witness :
    (∀ e ∈ mediaThenEmbedded [exMedia, exBinPdf, exEmf], processEntry e ≠ none) ∧
      get_attachments ".docx" [exMedia, exBinPdf, exEmf] =
        some [("img1.png", [1, 2, 3]), ("obj1.pdf", [37, 80, 68, 70, 45, 9])] :=
  ⟨by decide, (get_attachments_characterization [exMedia, exBinPdf, exEmf] (by decide)).trans
    (by decide)⟩

/-- Counterexample to C2 as stated: a `.bin` entry with a non-PDF `CONTENTS`
stream and a parseable native-object stream.  The claim's classification
predicts the parsed attachment `("hi.txt", [55])`, but the code checks the
native-object stream only when no `CONTENTS` stream exists and returns no
attachment at all. -/
theorem claim_C2_counterexample :
    get_attachments ".docx" [ceBinBoth] = some [] ∧
      [ceBinBoth].filterMap attachmentOfEntryClaim = [("hi.txt", [55])] := by decide

/-- Claim C3 (amended): when processing of any listed member raises, the
collector catches the exception outside the loop, so the whole extraction is
aborted and an empty attachment list is returned — the results recovered from
sibling members are discarded rather than preserved. -/
theorem get_attachments_aborts_on_failure (files : List ZipEntry)
    (h : ∃ e ∈ mediaThenEmbedded files, processEntry e = none) :
    get_attachments ".docx" files = some [] := by
  unfold get_attachments
  rw [if_pos rfl, runEntries_none _ h]

/-- Witness for C3 (amended): a container holding a good media entry and a
`.bin` member whose compound container cannot be opened yields `some []`. -/
theorem get_attachments_aborts_on_failure_witness :
    (∃ e ∈ mediaThenEmbedded [exMedia, ceBadBin], processEntry e = none) ∧
      get_attachments ".docx" [exMedia, ceBadBin] = some [] :=
  ⟨by decide, get_attachments_aborts_on_failure [exMedia, ceBadBin] (by decide)⟩

/-- Counterexample to C3 as stated: the media entry alone yields its
attachment, and the failing `.bin` member alone raises, but the container with
both yields the empty list — the sibling's attachment is not preserved. -/
theorem claim_C3_counterexample :
    processEntry exMedia = some (some ("img1.png", [1, 2, 3])) ∧
      processEntry ceBadBin = none ∧
      get_attachments ".docx" [exMedia, ceBadBin] = some [] := by decide

/-- Claim C4 (on the code as written): for every extension other than `.docx`,
`get_attachments` falls through its `if` without a `return` and thus returns
Python `None` (modelled as `none`) — an absent value, not the empty list the
claim and the function's own docstring promise. -/
theorem get_attachments_non_docx (ext : String) (files : List ZipEntry)
    (h : ext ≠ ".docx") : get_attachments ext files = none := by
  unfold get_attachments
  rw [if_neg h]

/-- Witness for C4's theorem at the failing input `.txt`. -/
theorem get_attachments_non_docx_witness :
    (".txt" ≠ ".docx") ∧ get_attachments ".txt" [exMedia] = none :=
  ⟨by decide, get_attachments_non_docx ".txt" [exMedia] (by decide)⟩

/-- Claim C5 (amended): a text-layer line box survives the filtering of
`_process_one_page` iff (when the readable frame is in effect) it has strict
positive-area overlap with the frame's box, and it has no strict positive-area
overlap with any table location block; in particular a box that only touches a
table boundary (zero-area overlap) is not excluded. -/
theorem mem_filterPageBBoxes (needFrame : Bool) (frame : BBox) (tableBlocks : List BBox)
    (bboxes : List TextWithBBox) (b : TextWithBBox) :
    b ∈ filterPageBBoxes needFrame frame tableBlocks bboxes ↔
      b ∈ bboxes ∧ (needFrame = true → frame.have_intersection_with_box b.bbox = true) ∧
        ∀ t ∈ tableBlocks, t.have_intersection_with_box b.bbox = false := by
  unfold filterPageBBoxes inside_any_unreadable_block
  cases needFrame
  · simp [List.mem_filter, List.any_eq_true]
  · simp [List.mem_filter, List.any_eq_true]
    tauto

/-- Counterexample to C5 as stated: with the readable frame in effect, a line
box that sticks out of the frame (so it does not fall inside it) still
survives the filtering, because the code keeps every box that merely
intersects the frame. -/
theorem claim_C5_counterexample :
    ceLine ∈ filterPageBBoxes true ceFrame [] [ceLine] ∧
      BBox.insideBox ceLine.bbox ceFrame = false := by
  constructor
  · simp [filterPageBBoxes, inside_any_unreadable_block, ceFrame, ceLine,
      BBox.have_intersection_with_box]
    norm_num
  · simp [BBox.insideBox, ceFrame, ceLine]

/-- Claim C7: when the text-layer extractor returns no page, the text-layer
page pipeline returns exactly empty lines, tables, attachments and angles. -/
theorem process_one_page_no_page {Line : Type} (extract_metadata : Page → List Line)
    (parameters : ParametersForParseDoc) (recognized_tables : List ScanTable)
    (gost_frame_box : BBox) :
    process_one_page extract_metadata parameters recognized_tables none gost_frame_box =
      ([], [], [], []) := rfl

/-- Claim C8: on a text-layer page with table analysis on, the returned tables
are the recognizer's tables, shifted by exactly the frame's top-left offset
when the readable-frame restriction is in effect, and in all cases with every
cell's internal line boxes rescaled into the page's native space using the
text layer's page width and height as the target dimensions. -/
theorem process_one_page_tables_shifted_rescaled {Line : Type}
    (extract_metadata : Page → List Line) (parameters : ParametersForParseDoc)
    (recognized_tables : List ScanTable) (page : Page) (gost_frame_box : BBox)
    (ht : parameters.need_pdf_table_analysis = true) :
    (process_one_page extract_metadata parameters recognized_tables (some page)
        gost_frame_box).2.1 =
      (if parameters.need_gost_frame_analysis then
          recognized_tables.map (tableShiftedBy gost_frame_box)
        else recognized_tables).map
        (tableRescaledTo page.pdf_page_width page.pdf_page_height) := by
  unfold process_one_page
  cases hg : parameters.need_gost_frame_analysis <;>
    simp [ht, hg, move_table_cells, change_table_boxes_page_width_heigth, tableShiftedBy,
      tableRescaledTo, Cell.shift, Cell.change_lines_boxes_page_width_height, List.map_map,
      Function.comp]

/-- Witness for C8 at a one-table page with the frame restriction on. -/
theorem process_one_page_tables_shifted_rescaled_witness :
    (ceParams.need_pdf_table_analysis = true) ∧
      (process_one_page (fun _ => ([] : List Nat)) ceParams [ceTable] (some cePage)
          ceFrame).2.1 =
        (if ceParams.need_gost_frame_analysis then [ceTable].map (tableShiftedBy ceFrame)
          else [ceTable]).map
          (tableRescaledTo cePage.pdf_page_width cePage.pdf_page_height) :=
  ⟨rfl, process_one_page_tables_shifted_rescaled (fun _ => ([] : List Nat)) ceParams
    [ceTable] cePage ceFrame rfl⟩

/-- Claim C6: when both a forced column count and a forced orientation are
supplied, the layout classifier is never invoked, and — provided the skew
corrector reports an applied angle of 0 when asked to rotate by 0 — the
rotation reported for the page is 0. -/
theorem detect_skips_classifier {Image : Type} (predict : Image → Int × ℚ)
    (skew_corrector : Image → ℚ → Image × ℚ) (image : Image) (hint : Bool) (orient : String)
    (hskew : (skew_corrector image 0).2 = 0) :
    (detect_column_count_and_orientation predict skew_corrector image (some hint)
        (some orient)).classifier_called = false ∧
      (detect_column_count_and_orientation predict skew_corrector image (some hint)
        (some orient)).result_angle = 0 := by
  unfold detect_column_count_and_orientation
  exact ⟨rfl, hskew⟩

/-- Witness for C6 with an identity-angle skew corrector. -/
theorem detect_skips_classifier_witness :
    (((fun (i : Unit) (a : ℚ) => (i, a)) () 0).2 = 0) ∧
      ((detect_column_count_and_orientation (fun _ => (2, 37))
          (fun (i : Unit) (a : ℚ) => (i, a)) () (some true) (some "auto")).classifier_called
            = false ∧
        (detect_column_count_and_orientation (fun _ => (2, 37))
          (fun (i : Unit) (a : ℚ) => (i, a)) () (some true) (some "auto")).result_angle = 0) :=
  ⟨rfl, detect_skips_classifier (fun _ => (2, 37)) (fun (i : Unit) (a : ℚ) => (i, a)) ()
    true "auto" rfl⟩

/-- Claim C10: whenever a forced orientation is supplied — with or without a
column-count hint — the rotation angle requested from the skew corrector is 0;
neither the hint's value nor any predicted angle is ever requested. -/
theorem forced_orientation_zero_request {Image : Type} (predict : Image → Int × ℚ)
    (skew_corrector : Image → ℚ → Image × ℚ) (image : Image) (hint : Option Bool)
    (orient : String) :
    (detect_column_count_and_orientation predict skew_corrector image hint
        (some orient)).requested_angle = 0 := by
  cases hint <;> rfl

end Dedoc
